import Mathlib

/-!
Verification of the content-generation retry/validation loop of
`app/ig_agent/agents/content_agent.py` (class `ContentAgent`).

The embedding models the JSON mapping `content_json` that the Python code
manipulates: a dictionary in which every key may be absent, so each field is
an `Option`.  Python string slicing `s[:n]` is modelled by taking the first
`n` characters of the character list underlying the string, and `len(s)` by
`String.length` (both count characters, as Python does for `str`).

The MD5 step of `_check_duplicate` and `_add_to_history` hashes the
concatenation of the identity-bearing fields; the model keeps the
concatenation itself as the signature.  MD5 is deterministic, so two
documents receive equal signatures in the code exactly when their
concatenated fields are equal, up to MD5 collisions, which no claim is
about.

The generator (the ReAct agent call `self.react_agent.invoke`) is an
external collaborator; it is modelled as a stub, a function from the
1-based attempt number to the raw response shape.  The retry annex that
`generate` adds to the request text on attempts 2.. only changes the text
handed to the generator, which the stub already abstracts over.  Wall-clock
time (`datetime.datetime.now()`) is environment input that no claim
observes; the `date` field of a history entry is modelled as `""`.
-/

namespace ContentAgentModel

/-- Python slicing `s[:n]`: the first `n` characters of `s`. -/
def strTake (s : String) (n : Nat) : String := ⟨s.data.take n⟩

/-- Model of the repeated Python pattern `if len(s) > n: s = s[:n]`. -/
def truncIf (n : Nat) (s : String) : String :=
  if s.length > n then strTake s n else s

/-- The `cover` sub-mapping of `content_json`; every key may be absent. -/
structure CoverJson where
  hashtag : Option String
  heading_line1 : Option String
  heading_line2 : Option String
  grey_box_text : Option String
deriving DecidableEq, Repr

/-- One entry of the `content_pages` list of `content_json`. -/
structure PageJson where
  title : Option String
  main_point : Option String
deriving DecidableEq, Repr

/-- The `content_json` mapping handled by `ContentAgent.generate`.  Only the
fields the generation loop reads or writes are modelled; the remaining keys
(`search_decision`, `engagement_hooks`, `sources`) are never read by the
repair, duplicate-check or history code. -/
structure Doc where
  cover : Option CoverJson
  caption : Option String
  content_pages : Option (List PageJson)
deriving DecidableEq, Repr

/-- One record of `self.content_history`, as built by `_add_to_history`. -/
structure HistoryEntry where
  date : String
  signature : String
  cover_heading : String
  hashtag : String
  titles : List String
deriving DecidableEq, Repr

/-- The identity-bearing fields of `_check_duplicate` / `_add_to_history`:
`cover.heading_line1`, `cover.heading_line2`, `cover.hashtag`, then every
`content_pages[i].title`, each read with `.get(key, '')`. -/
def contentFields (d : Doc) : List String :=
  [(d.cover.bind (fun c => c.heading_line1)).getD "",
   (d.cover.bind (fun c => c.heading_line2)).getD "",
   (d.cover.bind (fun c => c.hashtag)).getD ""]
  ++ (d.content_pages.getD []).map (fun p => p.title.getD "")

/-- The content signature: `md5(''.join(content_fields)).hexdigest()` in the
code; the model keeps the joined string (MD5 is deterministic, and no claim
depends on a collision). -/
def contentSignature (d : Doc) : String :=
  String.join (contentFields d)

/-- Model of `ContentAgent._check_duplicate`: linear scan of the in-memory
history for an entry with an equal signature. -/
def checkDuplicate (history : List HistoryEntry) (d : Doc) : Bool :=
  history.any (fun e => e.signature == contentSignature d)

/-- The history entry `_add_to_history` appends for a document.  The `date`
field is `datetime.datetime.now().isoformat()` in the code, modelled as `""`
(no claim observes it). -/
def historyEntryOf (d : Doc) : HistoryEntry :=
  { date := ""
    signature := contentSignature d
    cover_heading := (d.cover.bind (fun c => c.heading_line1)).getD "" ++ " " ++
                     (d.cover.bind (fun c => c.heading_line2)).getD ""
    hashtag := (d.cover.bind (fun c => c.hashtag)).getD ""
    titles := (d.content_pages.getD []).map (fun p => p.title.getD "") }

/-- The history cap of `_add_to_history`:
`if len(h) > 100: h = h[-100:]` (keep the most recent 100). -/
def capHistory (l : List HistoryEntry) : List HistoryEntry :=
  if l.length > 100 then l.drop (l.length - 100) else l

/-- Contents of the history file: missing, unparseable JSON, or a parsed
entry list. -/
inductive FileSt where
  | missing
  | invalid
  | valid (entries : List HistoryEntry)
deriving DecidableEq, Repr

/-- Model of `ContentAgent._load_history`: a missing file and a file whose
contents raise `json.JSONDecodeError` both yield `[]`; the function is
total, so construction never raises from history loading. -/
def loadHistory : FileSt → List HistoryEntry
  | FileSt.missing => []
  | FileSt.invalid => []
  | FileSt.valid l => l

/-- The mutable state of a `ContentAgent`: the in-memory history, the
history file contents, whether the file is writable (a failing
`open(..., 'w')`/`json.dump` is modelled as `writable = false`), and the
number of generator invocations so far (an observation counter for the
claims about invocation counts). -/
structure AgentSt where
  history : List HistoryEntry
  file : FileSt
  writable : Bool
  calls : Nat
deriving DecidableEq, Repr

/-- Model of `ContentAgent._save_history`: write the whole in-memory history
to the file; any write failure is caught and logged, leaving the file as it
was and raising nothing. -/
def saveHistory (st : AgentSt) : AgentSt :=
  if st.writable then { st with file := FileSt.valid st.history } else st

/-- Model of `ContentAgent._add_to_history`: append the entry, cap the
history at the most recent 100, then save (best effort). -/
def addToHistory (st : AgentSt) (d : Doc) : AgentSt :=
  saveHistory { st with history := capHistory (st.history ++ [historyEntryOf d]) }

/-- The state reached by `__init__` for a given history file, as far as the
claims observe it. -/
def initAgent (f : FileSt) (w : Bool) : AgentSt :=
  { history := loadHistory f, file := f, writable := w, calls := 0 }

/-- A synthetic placeholder page of the main-path padding block:
`title = "Key Point {n}"` with the fixed generic `main_point` text. -/
def keyPointPage (n : Nat) : PageJson :=
  { title := some ("Key Point " ++ toString n)
    main_point := some "This topic deserves more exploration and discussion in our community." }

/-- Pad a page list to the minimum of 3 entries: the loop
`while len(pages) < 3: pages.append(mk(len(pages) + 1))` appends
`mk (len0 + 1)`, `mk (len0 + 2)`, ... , closed form below. -/
def padPages (mk : Nat → PageJson) (ps : List PageJson) : List PageJson :=
  ps ++ (List.range (3 - ps.length)).map (fun i => mk (ps.length + 1 + i))

/-- The per-page truncation of the main repair block: `title` to 35
characters and `main_point` to 350, each only when the key is present. -/
def truncPage (p : PageJson) : PageJson :=
  { title := p.title.map (truncIf 35)
    main_point := p.main_point.map (truncIf 350) }

/-- The cover truncation of the main repair block: `heading_line1`,
`heading_line2` and `grey_box_text` each cut to 20 characters when
present. -/
def repairCover (c : CoverJson) : CoverJson :=
  { hashtag := c.hashtag
    heading_line1 := c.heading_line1.map (truncIf 20)
    heading_line2 := c.heading_line2.map (truncIf 20)
    grey_box_text := c.grey_box_text.map (truncIf 20) }

/-- The main-path repair of `generate` (the block guarded by
`isinstance(content_json, dict)`): truncate the cover fields to 20, each
page title to 35 and main point to 350, the caption to 800, then pad
`content_pages` up to 3 entries with `Key Point` placeholders.  Every
sub-step runs only when the corresponding key is present.  Note the code
never enforces the caption minimum length of 100 and never touches
`content_pages` when the key is absent. -/
def repairMain (d : Doc) : Doc :=
  { cover := d.cover.map repairCover
    caption := d.caption.map (truncIf 800)
    content_pages := d.content_pages.map
      (fun ps => padPages keyPointPage (ps.map truncPage)) }

/-- The shape of `result["messages"][-1].content` as `generate` receives it:
a native `InstagramPost` (whose `model_dump()` is a mapping), a mapping, a
string that `json.loads` parses into a mapping, or a string that fails to
parse (raising the `ValueError` of the coercion block). -/
inductive Raw where
  | post (p : Doc)
  | dict (d : Doc)
  | strOk (d : Doc)
  | strBad
deriving DecidableEq, Repr

/-- The coercion step of `generate`: the mapping obtained from the raw
response, or `none` when the `json.loads` failure raises `ValueError`
(message: could not be parsed as JSON, which contains neither
`validation error` nor `string_too_long`, so the salvage block of the
exception handler is never entered for it). -/
def coerceRaw : Raw → Option Doc
  | Raw.post p => some p
  | Raw.dict d => some d
  | Raw.strOk d => some d
  | Raw.strBad => none

/-- The value last assigned to the local variable `content_json`: a mapping,
or the raw unparsed string (assigned just before the coercion `ValueError`
is raised). -/
inductive ContentVal where
  | docv (d : Doc)
  | strv
deriving DecidableEq, Repr

/-- Outcome of a `generate` call.  `ok` is a `return content_json`;
`raisedCoercion` is the `raise e` of the final attempt (the documented
generation failure propagating to the caller); `unbound` is the final
`return content_json` reached with the local variable never assigned,
which in Python raises `UnboundLocalError` — neither a returned document
nor the documented failure. -/
inductive Outcome where
  | ok (v : ContentVal) (st : AgentSt)
  | raisedCoercion (st : AgentSt)
  | unbound (st : AgentSt)
deriving DecidableEq, Repr

/-- One pass of the `while attempt < max_attempts` loop of
`ContentAgent.generate`, with `fuel` the number of loop iterations still
allowed (`max_attempts - attempt`) and `attempt` the number of iterations
already finished; `fuel = 0` after the decrement marks
`attempt == max_attempts`, the last allowed attempt.  `last` is the value
currently held by the local variable `content_json` (`none` before any
assignment).  Per iteration: invoke the generator, coerce, repair, check
for a duplicate; accept (append to history, persist, return) when fresh or
when the budget is exhausted, otherwise loop; a coercion failure raises on
the last attempt and loops otherwise.  Falling out of the loop reaches
`return content_json`, which is an `UnboundLocalError` when the variable
was never assigned (`Outcome.unbound`). -/
def genLoop (gen : Nat → Raw) : Nat → Nat → AgentSt → Option ContentVal → Outcome
  | 0, _, st, last =>
      match last with
      | some v => Outcome.ok v st
      | none => Outcome.unbound st
  | f + 1, attempt, st, _last =>
      let st1 : AgentSt := { st with calls := st.calls + 1 }
      match coerceRaw (gen (attempt + 1)) with
      | none =>
          if f = 0 then Outcome.raisedCoercion st1
          else genLoop gen f (attempt + 1) st1 (some ContentVal.strv)
      | some cj0 =>
          let cj := repairMain cj0
          if checkDuplicate st1.history cj then
            if f = 0 then Outcome.ok (ContentVal.docv cj) (addToHistory st1 cj)
            else genLoop gen f (attempt + 1) st1 (some (ContentVal.docv cj))
          else Outcome.ok (ContentVal.docv cj) (addToHistory st1 cj)

/-- Model of `ContentAgent.generate(request, max_attempts)`.  The request
string only feeds the generator stub; `max_attempts` is a Python `int`,
modelled as `Int` (the loop runs `max 0 max_attempts` times). -/
def generate (gen : Nat → Raw) (maxAttempts : Int) (st : AgentSt) : Outcome :=
  genLoop gen maxAttempts.toNat 0 st none

/-- Whether an optional string field, when present, has length at most
`n`. -/
def optLenLe (o : Option String) (n : Nat) : Bool :=
  match o with
  | none => true
  | some s => decide (s.length ≤ n)

/-- Per-page length bounds of the schema: `title` at most 35 characters,
`main_point` at most 350. -/
def pageOk (p : PageJson) : Bool :=
  optLenLe p.title 35 && optLenLe p.main_point 350

/-- Cover length bounds as the main repair path enforces them: 20
characters for both heading lines and for the grey box text. -/
def coverOk (c : CoverJson) : Bool :=
  optLenLe c.heading_line1 20 && optLenLe c.heading_line2 20 &&
    optLenLe c.grey_box_text 20

/-- The length upper bounds that hold of every present field of a document
returned by `generate`: cover fields at most 20 characters, page titles at
most 35, page main points at most 350, caption at most 800. -/
def boundsOk (d : Doc) : Bool :=
  (match d.cover with
   | none => true
   | some c => coverOk c) &&
  optLenLe d.caption 800 &&
  (match d.content_pages with
   | none => true
   | some ps => ps.all pageOk)

/-- The caller-observable part of an outcome: which exit was taken, the
returned value, the in-memory history and the invocation count — everything
except the history file contents and the writability flag. -/
def outView : Outcome → Nat × Option ContentVal × List HistoryEntry × Nat
  | Outcome.ok v s => (0, some v, s.history, s.calls)
  | Outcome.raisedCoercion s => (1, none, s.history, s.calls)
  | Outcome.unbound s => (2, none, s.history, s.calls)

/-- Post-state of one `generate` call whose generator always returns the
mapping `d` (default `max_attempts = 3`). -/
def runGen (st : AgentSt) (d : Doc) : AgentSt :=
  match generate (fun _ => Raw.dict d) 3 st with
  | Outcome.ok _ s => s
  | Outcome.raisedCoercion s => s
  | Outcome.unbound s => s

/-- Post-state of a sequence of `generate` calls, one per document: the
scenario of the history-cap claim. -/
def runSeq (st : AgentSt) (docs : List Doc) : AgentSt :=
  docs.foldl runGen st

/-! Concrete inputs used by the witness and counterexample theorems. -/

/-- A fresh agent state: empty history, no history file yet, file
writable. -/
def emptySt : AgentSt :=
  { history := [], file := FileSt.missing, writable := true, calls := 0 }

/-- A minimal document whose signature is `"A"`. -/
def wDocA : Doc :=
  { cover := some { hashtag := none, heading_line1 := some "A",
                    heading_line2 := none, grey_box_text := none }
    caption := none
    content_pages := none }

/-- A minimal document whose signature is `"B"`. -/
def wDocB : Doc :=
  { cover := some { hashtag := none, heading_line1 := some "B",
                    heading_line2 := none, grey_box_text := none }
    caption := none
    content_pages := none }

/-- The history entry of `wDocA` after repair. -/
def wEntryA : HistoryEntry := historyEntryOf (repairMain wDocA)

/-- An agent state whose history already holds the signature of
`wDocA`. -/
def wStA : AgentSt :=
  { history := [wEntryA], file := FileSt.missing, writable := true, calls := 0 }

/-- Stub for the duplicate-suppression witness: the duplicate `wDocA` on
attempt 1, the fresh `wDocB` from attempt 2 on. -/
def wGenAB : Nat → Raw :=
  fun a => if a = 1 then Raw.dict wDocA else Raw.dict wDocB

/-- Stub for the forced-acceptance witness: always the duplicate
`wDocA`. -/
def wGenA : Nat → Raw := fun _ => Raw.dict wDocA

/-- Document with three well-formed pages but a caption of length 5: the
caption lower bound of 100 is never enforced on the dictionary path. -/
def cex3doc : Doc :=
  { cover := some { hashtag := some "AI", heading_line1 := some "Hello",
                    heading_line2 := some "World", grey_box_text := some "box" }
    caption := some "short"
    content_pages := some
      [{ title := some "T1", main_point := some "M1" },
       { title := some "T2", main_point := some "M2" },
       { title := some "T3", main_point := some "M3" }] }

/-- The repaired form of `cex3doc` (identical: nothing exceeds a bound). -/
def cex3res : Doc := repairMain cex3doc

/-- Stub returning `cex3doc` on every attempt. -/
def cex3gen : Nat → Raw := fun _ => Raw.dict cex3doc

/-- The post-state of the caption-counterexample run. -/
def cex3st : AgentSt := addToHistory { emptySt with calls := 1 } cex3res

/-- Document whose mapping has no `content_pages` key at all: the padding
block is guarded by `if "content_pages" in content_json` and never runs. -/
def cex4doc : Doc :=
  { cover := some { hashtag := some "AI", heading_line1 := some "Hello",
                    heading_line2 := some "World", grey_box_text := some "box" }
    caption := some "c"
    content_pages := none }

/-- The repaired form of `cex4doc` (still no `content_pages` key). -/
def cex4res : Doc := repairMain cex4doc

/-- Stub returning `cex4doc` on every attempt. -/
def cex4gen : Nat → Raw := fun _ => Raw.dict cex4doc

/-- The post-state of the missing-pages counterexample run. -/
def cex4st : AgentSt := addToHistory { emptySt with calls := 1 } cex4res

/-- A single short content page, for the padding witness. -/
def wPage4 : PageJson := { title := some "T1", main_point := some "M1" }

/-- A document with a single (short) content page, for the padding
witness. -/
def wDoc4 : Doc :=
  { cover := some { hashtag := some "AI", heading_line1 := some "Hello",
                    heading_line2 := some "World", grey_box_text := some "box" }
    caption := some "c"
    content_pages := some [wPage4] }

/-- The content pages of `cex3res`, unchanged by repair. -/
def cex3pagesOut : List PageJson :=
  [{ title := some "T1", main_point := some "M1" },
   { title := some "T2", main_point := some "M2" },
   { title := some "T3", main_point := some "M3" }]

/-- The 101 pairwise distinct-signature documents of the history-cap
witness: document `i` carries `heading_line1 = toString i`. -/
def w5docs : List Doc :=
  (List.range 101).map (fun i =>
    { cover := some { hashtag := none, heading_line1 := some (toString i),
                      heading_line2 := none, grey_box_text := none }
      caption := none
      content_pages := none })

/-- Stub for the malformed-JSON counterexample: the unparseable string on
attempt 1, then always a mapping that duplicates the history. -/
def cex6gen : Nat → Raw :=
  fun a => if a = 1 then Raw.strBad else Raw.dict wDocA

/-- The post-state of the malformed-JSON counterexample run: three
invocations, one history append. -/
def cex6st : AgentSt := addToHistory { wStA with calls := 3 } (repairMain wDocA)

/-- Stub for the amended malformed-JSON witness: the unparseable string on
attempt 1, then always the fresh `wDocB`. -/
def wGen6 : Nat → Raw :=
  fun a => if a = 1 then Raw.strBad else Raw.dict wDocB

/-- An agent state whose history file writes fail. -/
def wSt8 : AgentSt :=
  { history := [], file := FileSt.missing, writable := false, calls := 0 }

/-- The returned document of the persistence-failure witness run. -/
def wDoc8 : Doc := repairMain wDocB

/-- The post-state of the persistence-failure witness run. -/
def wSt8' : AgentSt := addToHistory { wSt8 with calls := 1 } wDoc8

/-! Helper lemmas about the building blocks. -/

theorem truncIf_length_le (n : Nat) (s : String) : (truncIf n s).length ≤ n := by
  unfold truncIf
  split
  · show (s.data.take n).length ≤ n
    rw [List.length_take]
    exact min_le_left _ _
  · omega

theorem truncIf_idem (n : Nat) (s : String) :
    truncIf n (truncIf n s) = truncIf n s := by
  by_cases h : s.length > n
  · have hl : (truncIf n s).length ≤ n := truncIf_length_le n s
    unfold truncIf
    rw [if_pos h, if_neg]
    unfold truncIf at hl
    rw [if_pos h] at hl
    omega
  · unfold truncIf
    rw [if_neg h, if_neg h]

theorem truncIf_of_le (n : Nat) (s : String) (h : s.length ≤ n) :
    truncIf n s = s := by
  unfold truncIf
  rw [if_neg (by omega)]

theorem saveHistory_history (st : AgentSt) :
    (saveHistory st).history = st.history := by
  unfold saveHistory
  split <;> rfl

theorem saveHistory_calls (st : AgentSt) :
    (saveHistory st).calls = st.calls := by
  unfold saveHistory
  split <;> rfl

theorem addToHistory_history (st : AgentSt) (d : Doc) :
    (addToHistory st d).history = capHistory (st.history ++ [historyEntryOf d]) := by
  unfold addToHistory
  rw [saveHistory_history]

theorem addToHistory_calls (st : AgentSt) (d : Doc) :
    (addToHistory st d).calls = st.calls := by
  unfold addToHistory
  rw [saveHistory_calls]

theorem capHistory_eq_drop (l : List HistoryEntry) :
    capHistory l = l.drop (l.length - 100) := by
  unfold capHistory
  split
  · rfl
  · next h =>
    have h0 : l.length - 100 = 0 := by omega
    rw [h0, List.drop_zero]

theorem capHistory_length (l : List HistoryEntry) :
    (capHistory l).length = min l.length 100 := by
  rw [capHistory_eq_drop, List.length_drop]
  omega

theorem capHistory_of_le (l : List HistoryEntry) (h : l.length ≤ 100) :
    capHistory l = l := by
  unfold capHistory
  rw [if_neg (by omega)]

theorem drop_append_small {α : Type} (l l2 : List α) (k : Nat) (hk : k ≤ l.length) :
    List.drop k (l ++ l2) = List.drop k l ++ l2 := by
  rw [List.drop_append_eq_append_drop]
  have h0 : k - l.length = 0 := by omega
  rw [h0, List.drop_zero]

theorem capHistory_capHistory_append (l l2 : List HistoryEntry) :
    capHistory (capHistory l ++ l2) = capHistory (l ++ l2) := by
  rw [capHistory_eq_drop l, capHistory_eq_drop, capHistory_eq_drop]
  rw [← drop_append_small l l2 (l.length - 100) (by omega)]
  rw [List.drop_drop]
  have h3 : l.length - 100 + ((List.drop (l.length - 100) (l ++ l2)).length - 100)
      = (l ++ l2).length - 100 := by
    rw [List.length_drop, List.length_append]
    omega
  rw [h3]

theorem mem_capHistory_append_last (l : List HistoryEntry) (x : HistoryEntry) :
    x ∈ capHistory (l ++ [x]) := by
  rw [capHistory_eq_drop]
  rw [drop_append_small l [x] ((l ++ [x]).length - 100)
    (by have h1 : (l ++ [x]).length = l.length + 1 := by simp
        omega)]
  exact List.mem_append_right _ (List.mem_singleton.mpr rfl)

theorem subset_capHistory (l : List HistoryEntry) :
    capHistory l ⊆ l := by
  rw [capHistory_eq_drop]
  exact List.drop_subset _ _

theorem checkDuplicate_true_iff (h : List HistoryEntry) (d : Doc) :
    checkDuplicate h d = true ↔ ∃ e ∈ h, e.signature = contentSignature d := by
  simp [checkDuplicate, List.any_eq_true]

theorem checkDuplicate_false_iff (h : List HistoryEntry) (d : Doc) :
    checkDuplicate h d = false ↔ ∀ e ∈ h, e.signature ≠ contentSignature d := by
  simp [checkDuplicate]

theorem historyEntryOf_signature (d : Doc) :
    (historyEntryOf d).signature = contentSignature d := rfl

/-! Step lemmas for the retry loop. -/

theorem genLoop_zero_none (gen : Nat → Raw) (attempt : Nat) (st : AgentSt) :
    genLoop gen 0 attempt st none = Outcome.unbound st := rfl

theorem genLoop_zero_some (gen : Nat → Raw) (attempt : Nat) (st : AgentSt)
    (v : ContentVal) : genLoop gen 0 attempt st (some v) = Outcome.ok v st := rfl

theorem genLoop_succ_none (gen : Nat → Raw) (f attempt : Nat) (st : AgentSt)
    (last : Option ContentVal) (hc : coerceRaw (gen (attempt + 1)) = none) :
    genLoop gen (f + 1) attempt st last =
      if f = 0 then Outcome.raisedCoercion { st with calls := st.calls + 1 }
      else genLoop gen f (attempt + 1) { st with calls := st.calls + 1 }
        (some ContentVal.strv) := by
  simp only [genLoop, hc]

theorem genLoop_succ_fresh (gen : Nat → Raw) (f attempt : Nat) (st : AgentSt)
    (last : Option ContentVal) (d : Doc)
    (hc : coerceRaw (gen (attempt + 1)) = some d)
    (hd : checkDuplicate st.history (repairMain d) = false) :
    genLoop gen (f + 1) attempt st last =
      Outcome.ok (ContentVal.docv (repairMain d))
        (addToHistory { st with calls := st.calls + 1 } (repairMain d)) := by
  simp only [genLoop, hc, hd]
  simp [hd]

theorem genLoop_succ_dup (gen : Nat → Raw) (f attempt : Nat) (st : AgentSt)
    (last : Option ContentVal) (d : Doc)
    (hc : coerceRaw (gen (attempt + 1)) = some d)
    (hd : checkDuplicate st.history (repairMain d) = true) (hf : f ≠ 0) :
    genLoop gen (f + 1) attempt st last =
      genLoop gen f (attempt + 1) { st with calls := st.calls + 1 }
        (some (ContentVal.docv (repairMain d))) := by
  simp only [genLoop, hc]
  simp [hd, hf]

theorem genLoop_succ_dup_last (gen : Nat → Raw) (attempt : Nat) (st : AgentSt)
    (last : Option ContentVal) (d : Doc)
    (hc : coerceRaw (gen (attempt + 1)) = some d)
    (hd : checkDuplicate st.history (repairMain d) = true) :
    genLoop gen 1 attempt st last =
      Outcome.ok (ContentVal.docv (repairMain d))
        (addToHistory { st with calls := st.calls + 1 } (repairMain d)) := by
  show genLoop gen (0 + 1) attempt st last = _
  simp only [genLoop, hc]
  simp [hd]

/-! Main lemmas about the retry loop. -/

theorem genLoop_view_congr (gen : Nat → Raw) :
    ∀ (f attempt : Nat) (st1 st2 : AgentSt) (last : Option ContentVal),
      st1.history = st2.history → st1.calls = st2.calls →
      outView (genLoop gen f attempt st1 last)
        = outView (genLoop gen f attempt st2 last) := by
  intro f
  induction f with
  | zero =>
    intro attempt st1 st2 last hh hcnt
    cases last with
    | none => simp [genLoop_zero_none, outView, hh, hcnt]
    | some v => simp [genLoop_zero_some, outView, hh, hcnt]
  | succ f ih =>
    intro attempt st1 st2 last hh hcnt
    cases hc : coerceRaw (gen (attempt + 1)) with
    | none =>
      rw [genLoop_succ_none gen f attempt st1 last hc,
          genLoop_succ_none gen f attempt st2 last hc]
      by_cases hf : f = 0
      · simp [hf, outView, hh, hcnt]
      · rw [if_neg hf, if_neg hf]
        exact ih (attempt + 1) _ _ _ (by simpa using hh) (by simp [hcnt])
    | some d =>
      have hcd : checkDuplicate st1.history (repairMain d)
          = checkDuplicate st2.history (repairMain d) := by rw [hh]
      cases hdup : checkDuplicate st2.history (repairMain d) with
      | false =>
        rw [genLoop_succ_fresh gen f attempt st1 last d hc (by rw [hcd]; exact hdup),
            genLoop_succ_fresh gen f attempt st2 last d hc hdup]
        simp [outView, addToHistory_history, addToHistory_calls, hh, hcnt]
      | true =>
        by_cases hf : f = 0
        · subst hf
          rw [genLoop_succ_dup_last gen attempt st1 last d hc (by rw [hcd]; exact hdup),
              genLoop_succ_dup_last gen attempt st2 last d hc hdup]
          simp [outView, addToHistory_history, addToHistory_calls, hh, hcnt]
        · rw [genLoop_succ_dup gen f attempt st1 last d hc (by rw [hcd]; exact hdup) hf,
              genLoop_succ_dup gen f attempt st2 last d hc hdup hf]
          exact ih (attempt + 1) _ _ _ (by simpa using hh) (by simp [hcnt])

theorem genLoop_ok_inv (gen : Nat → Raw) :
    ∀ (f attempt : Nat) (st : AgentSt) (last : Option ContentVal)
      (v : ContentVal) (s2 : AgentSt),
      1 ≤ f → genLoop gen f attempt st last = Outcome.ok v s2 →
      ∃ c m, v = ContentVal.docv (repairMain c) ∧ 1 ≤ m ∧ m ≤ f ∧
        s2 = addToHistory { st with calls := st.calls + m } (repairMain c) := by
  intro f
  induction f with
  | zero => intro attempt st last v s2 hf; omega
  | succ f ih =>
    intro attempt st last v s2 _ h
    cases hc : coerceRaw (gen (attempt + 1)) with
    | none =>
      rw [genLoop_succ_none gen f attempt st last hc] at h
      by_cases hf : f = 0
      · rw [if_pos hf] at h
        exact absurd h (by simp)
      · rw [if_neg hf] at h
        obtain ⟨c, m, hv, hm1, hmf, hs⟩ :=
          ih (attempt + 1) _ _ v s2 (by omega) h
        refine ⟨c, m + 1, hv, by omega, by omega, ?_⟩
        rw [hs]
        have hcc : st.calls + 1 + m = st.calls + (m + 1) := by omega
        simp [hcc]
    | some d =>
      cases hdup : checkDuplicate st.history (repairMain d) with
      | false =>
        rw [genLoop_succ_fresh gen f attempt st last d hc hdup] at h
        rw [Outcome.ok.injEq] at h
        exact ⟨d, 1, h.1.symm, le_refl 1, by omega, h.2.symm⟩
      | true =>
        by_cases hf : f = 0
        · subst hf
          rw [genLoop_succ_dup_last gen attempt st last d hc hdup] at h
          rw [Outcome.ok.injEq] at h
          exact ⟨d, 1, h.1.symm, le_refl 1, by omega, h.2.symm⟩
        · rw [genLoop_succ_dup gen f attempt st last d hc hdup hf] at h
          obtain ⟨c, m, hv, hm1, hmf, hs⟩ :=
            ih (attempt + 1) _ _ v s2 (by omega) h
          refine ⟨c, m + 1, hv, by omega, by omega, ?_⟩
          rw [hs]
          have hcc : st.calls + 1 + m = st.calls + (m + 1) := by omega
          simp [hcc]

theorem genLoop_dup_prefix (gen : Nat → Raw) :
    ∀ (m f attempt : Nat) (st : AgentSt) (last : Option ContentVal) (d : Doc),
      1 ≤ m → m ≤ f →
      (∀ i, 1 ≤ i → i < m → ∃ di, coerceRaw (gen (attempt + i)) = some di ∧
        checkDuplicate st.history (repairMain di) = true) →
      coerceRaw (gen (attempt + m)) = some d →
      checkDuplicate st.history (repairMain d) = false →
      genLoop gen f attempt st last =
        Outcome.ok (ContentVal.docv (repairMain d))
          (addToHistory { st with calls := st.calls + m } (repairMain d)) := by
  intro m
  induction m with
  | zero => intro f attempt st last d hm; omega
  | succ m ih =>
    intro f attempt st last d _ hmf hdup hcd hfresh
    obtain ⟨f', rfl⟩ : ∃ f', f = f' + 1 := ⟨f - 1, by omega⟩
    by_cases hm : m = 0
    · subst hm
      exact genLoop_succ_fresh gen f' attempt st last d hcd hfresh
    · obtain ⟨d1, hd1, hdup1⟩ := hdup 1 (le_refl 1) (by omega)
      rw [genLoop_succ_dup gen f' attempt st last d1 hd1 hdup1 (by omega)]
      have step := ih (f') (attempt + 1) { st with calls := st.calls + 1 }
        (some (ContentVal.docv (repairMain d1))) d (by omega) (by omega)
        (fun i hi1 hi2 => by
          have ha : attempt + 1 + i = attempt + (i + 1) := by omega
          rw [ha]
          obtain ⟨di, h1, h2⟩ := hdup (i + 1) (by omega) (by omega)
          exact ⟨di, h1, by simpa using h2⟩)
        (by have ha : attempt + 1 + m = attempt + (m + 1) := by omega
            rw [ha]; exact hcd)
        (by simpa using hfresh)
      rw [step]
      have hcc : st.calls + 1 + m = st.calls + (m + 1) := by omega
      simp [hcc]

theorem genLoop_all_dup (gen : Nat → Raw) :
    ∀ (f attempt : Nat) (st : AgentSt) (last : Option ContentVal),
      1 ≤ f →
      (∀ i, 1 ≤ i → i ≤ f → ∃ di, coerceRaw (gen (attempt + i)) = some di ∧
        checkDuplicate st.history (repairMain di) = true) →
      ∃ d, coerceRaw (gen (attempt + f)) = some d ∧
        genLoop gen f attempt st last =
          Outcome.ok (ContentVal.docv (repairMain d))
            (addToHistory { st with calls := st.calls + f } (repairMain d)) := by
  intro f
  induction f with
  | zero => intro attempt st last hf; omega
  | succ f ih =>
    intro attempt st last _ hdup
    by_cases hf : f = 0
    · subst hf
      obtain ⟨d, hd, hdupd⟩ := hdup 1 (le_refl 1) (le_refl 1)
      exact ⟨d, hd, genLoop_succ_dup_last gen attempt st last d hd hdupd⟩
    · obtain ⟨d1, hd1, hdup1⟩ := hdup 1 (le_refl 1) (by omega)
      obtain ⟨d, hgen, hloop⟩ := ih (attempt + 1) { st with calls := st.calls + 1 }
        (some (ContentVal.docv (repairMain d1))) (by omega)
        (fun i hi1 hi2 => by
          have ha : attempt + 1 + i = attempt + (i + 1) := by omega
          rw [ha]
          obtain ⟨di, h1, h2⟩ := hdup (i + 1) (by omega) (by omega)
          exact ⟨di, h1, by simpa using h2⟩)
      refine ⟨d, by have ha : attempt + 1 + f = attempt + (f + 1) := by omega
                    rw [ha] at hgen; exact hgen, ?_⟩
      rw [genLoop_succ_dup gen f attempt st last d1 hd1 hdup1 hf, hloop]
      have hcc : st.calls + 1 + f = st.calls + (f + 1) := by omega
      simp [hcc]

/-! Lemmas about the repair step. -/

theorem optLenLe_map_truncIf (o : Option String) (n : Nat) :
    optLenLe (o.map (truncIf n)) n = true := by
  cases o with
  | none => rfl
  | some s => simp [optLenLe, truncIf_length_le]

theorem pageOk_truncPage (p : PageJson) : pageOk (truncPage p) = true := by
  simp [pageOk, truncPage, optLenLe_map_truncIf]

theorem pageOk_keyPointPage (n : Nat) (h : n ≤ 3) :
    pageOk (keyPointPage n) = true := by
  interval_cases n <;> decide

theorem coverOk_repairCover (c : CoverJson) : coverOk (repairCover c) = true := by
  simp [coverOk, repairCover, optLenLe_map_truncIf]

theorem padPages_length (mk : Nat → PageJson) (ps : List PageJson) :
    (padPages mk ps).length = ps.length + (3 - ps.length) := by
  simp [padPages]

theorem padPages_length_ge (mk : Nat → PageJson) (ps : List PageJson) :
    3 ≤ (padPages mk ps).length := by
  rw [padPages_length]
  omega

theorem all_pageOk_repairPages (ps : List PageJson) :
    (padPages keyPointPage (ps.map truncPage)).all pageOk = true := by
  rw [List.all_eq_true]
  intro x hx
  rcases List.mem_append.mp hx with h | h
  · obtain ⟨p, _, rfl⟩ := List.mem_map.mp h
    exact pageOk_truncPage p
  · obtain ⟨i, hi, rfl⟩ := List.mem_map.mp h
    have hilt : i < 3 - (ps.map truncPage).length := List.mem_range.mp hi
    exact pageOk_keyPointPage _ (by omega)

theorem boundsOk_repairMain (d : Doc) : boundsOk (repairMain d) = true := by
  rcases d with ⟨cov, cap, pages⟩
  cases cov <;> cases cap <;> cases pages <;>
    simp [boundsOk, repairMain, optLenLe, coverOk_repairCover,
      optLenLe_map_truncIf, all_pageOk_repairPages, truncIf_length_le]

theorem truncPage_idem (p : PageJson) : truncPage (truncPage p) = truncPage p := by
  rcases p with ⟨t, m⟩
  cases t <;> cases m <;> simp [truncPage, truncIf_idem]

theorem truncPage_keyPointPage (n : Nat) (h : n ≤ 3) :
    truncPage (keyPointPage n) = keyPointPage n := by
  interval_cases n <;> decide

theorem repairCover_idem (c : CoverJson) :
    repairCover (repairCover c) = repairCover c := by
  rcases c with ⟨ht, h1, h2, g⟩
  cases h1 <;> cases h2 <;> cases g <;> simp [repairCover, truncIf_idem]

theorem map_truncPage_repairPages (ps : List PageJson) :
    (padPages keyPointPage (ps.map truncPage)).map truncPage
      = padPages keyPointPage (ps.map truncPage) := by
  have h := List.map_congr_left
    (l := padPages keyPointPage (ps.map truncPage)) (f := truncPage) (g := id) ?_
  · rw [h, List.map_id]
  · intro x hx
    rcases List.mem_append.mp hx with h | h
    · obtain ⟨p, _, rfl⟩ := List.mem_map.mp h
      exact truncPage_idem p
    · obtain ⟨i, hi, rfl⟩ := List.mem_map.mp h
      have hilt : i < 3 - (ps.map truncPage).length := List.mem_range.mp hi
      exact truncPage_keyPointPage _ (by omega)

theorem repairPages_idem (ps : List PageJson) :
    padPages keyPointPage
        ((padPages keyPointPage (ps.map truncPage)).map truncPage)
      = padPages keyPointPage (ps.map truncPage) := by
  rw [map_truncPage_repairPages]
  have h3 : 3 - (padPages keyPointPage (ps.map truncPage)).length = 0 := by
    have := padPages_length_ge keyPointPage (ps.map truncPage)
    omega
  show padPages keyPointPage (ps.map truncPage) ++
      (List.range (3 - (padPages keyPointPage (ps.map truncPage)).length)).map
        (fun i => keyPointPage
          ((padPages keyPointPage (ps.map truncPage)).length + 1 + i))
    = padPages keyPointPage (ps.map truncPage)
  rw [h3]
  simp

/-! Lemmas about sequences of `generate` calls. -/

theorem generate_dict_fresh (st : AgentSt) (d : Doc)
    (h : checkDuplicate st.history (repairMain d) = false) :
    generate (fun _ => Raw.dict d) 3 st =
      Outcome.ok (ContentVal.docv (repairMain d))
        (addToHistory { st with calls := st.calls + 1 } (repairMain d)) := by
  show genLoop (fun _ => Raw.dict d) (2 + 1) 0 st none = _
  exact genLoop_succ_fresh (fun _ => Raw.dict d) 2 0 st none d rfl h

theorem runGen_fresh (st : AgentSt) (d : Doc)
    (h : checkDuplicate st.history (repairMain d) = false) :
    runGen st d = addToHistory { st with calls := st.calls + 1 } (repairMain d) := by
  unfold runGen
  rw [generate_dict_fresh st d h]

theorem runSeq_fresh :
    ∀ (docs : List Doc) (st : AgentSt),
      st.history.length ≤ 100 →
      (docs.map (fun d => contentSignature (repairMain d))).Nodup →
      (∀ d ∈ docs, ∀ e ∈ st.history, e.signature ≠ contentSignature (repairMain d)) →
      (runSeq st docs).history
        = capHistory (st.history ++ docs.map (fun d => historyEntryOf (repairMain d))) := by
  intro docs
  induction docs with
  | nil =>
    intro st hlen _ _
    show st.history = _
    rw [List.map_nil, List.append_nil, capHistory_of_le _ hlen]
  | cons d ds ih =>
    intro st hlen hnd hfresh
    have hdup : checkDuplicate st.history (repairMain d) = false := by
      rw [checkDuplicate_false_iff]
      intro e he
      exact hfresh d (by simp) e he
    have hstep : runSeq st (d :: ds) = runSeq (runGen st d) ds := by
      simp [runSeq]
    rw [hstep, runGen_fresh st d hdup]
    set st2 := addToHistory { st with calls := st.calls + 1 } (repairMain d) with hst2
    have hh2 : st2.history
        = capHistory (st.history ++ [historyEntryOf (repairMain d)]) :=
      addToHistory_history _ _
    have hlen1 : (st.history ++ [historyEntryOf (repairMain d)]).length
        = st.history.length + 1 := by simp
    have hlen2 : st2.history.length ≤ 100 := by
      rw [hh2, capHistory_length]
      omega
    have hnd' : (∀ x ∈ ds, contentSignature (repairMain x)
          ≠ contentSignature (repairMain d)) ∧
        (ds.map (fun d => contentSignature (repairMain d))).Nodup := by
      simpa using hnd
    have hfresh2 : ∀ d2 ∈ ds, ∀ e ∈ st2.history,
        e.signature ≠ contentSignature (repairMain d2) := by
      intro d2 hd2 e he
      rw [hh2] at he
      rcases List.mem_append.mp (subset_capHistory _ he) with h | h
      · exact hfresh d2 (by simp [hd2]) e h
      · have he2 : e = historyEntryOf (repairMain d) := by simpa using h
        subst he2
        rw [historyEntryOf_signature]
        intro hcontra
        exact hnd'.1 d2 hd2 hcontra.symm
    rw [ih st2 hlen2 hnd'.2 hfresh2, hh2, capHistory_capHistory_append]
    rw [List.map_cons, List.append_assoc, List.singleton_append]

/-! Claim theorems. -/

/-- C1: for every history containing an entry with signature `S`, and
every generator stub whose attempts `1..k-1` yield documents with derived
signature `S` while attempt `k` (with `k ≤ max_attempts`) yields a
document whose signature is not in the history, `generate` returns the
distinct-signature document (in repaired form) and the history grows by
exactly one appended entry (followed by the 100-entry cap). -/
theorem duplicate_suppression (gen : Nat → Raw) (st : AgentSt) (k maxA : Nat)
    (S : String) (d : Doc)
    (hk : 1 ≤ k) (hkm : k ≤ maxA)
    (hS : ∃ e ∈ st.history, e.signature = S)
    (hdup : ∀ i, 1 ≤ i → i < k → ∃ di, coerceRaw (gen i) = some di ∧
      contentSignature (repairMain di) = S)
    (hcd : coerceRaw (gen k) = some d)
    (hfresh : ∀ e ∈ st.history, e.signature ≠ contentSignature (repairMain d)) :
    generate gen (Int.ofNat maxA) st =
      Outcome.ok (ContentVal.docv (repairMain d))
        (addToHistory { st with calls := st.calls + k } (repairMain d)) ∧
    (addToHistory { st with calls := st.calls + k } (repairMain d)).history
      = capHistory (st.history ++ [historyEntryOf (repairMain d)]) := by
  constructor
  · show genLoop gen (Int.ofNat maxA).toNat 0 st none = _
    have ht : (Int.ofNat maxA).toNat = maxA := rfl
    rw [ht]
    apply genLoop_dup_prefix gen k maxA 0 st none d hk hkm
    · intro i hi1 hi2
      obtain ⟨di, h1, h2⟩ := hdup i hi1 hi2
      refine ⟨di, by simpa using h1, ?_⟩
      rw [checkDuplicate_true_iff]
      obtain ⟨e, he, hes⟩ := hS
      exact ⟨e, he, by rw [hes, h2]⟩
    · simpa using hcd
    · rw [checkDuplicate_false_iff]
      exact hfresh
  · exact addToHistory_history _ _

/-- Witness for the duplicate-suppression theorem: a one-entry history
with signature of `wDocA`, the duplicate on attempt 1, the fresh `wDocB`
on attempt 2 of 3. -/
theorem duplicate_suppression_witness :
    generate wGenAB (Int.ofNat 3) wStA =
      Outcome.ok (ContentVal.docv (repairMain wDocB))
        (addToHistory { wStA with calls := wStA.calls + 2 } (repairMain wDocB)) ∧
    (addToHistory { wStA with calls := wStA.calls + 2 } (repairMain wDocB)).history
      = capHistory (wStA.history ++ [historyEntryOf (repairMain wDocB)]) :=
  duplicate_suppression wGenAB wStA 2 3 (contentSignature (repairMain wDocA))
    wDocB (by decide) (by decide)
    ⟨wEntryA, by simp [wStA], rfl⟩
    (fun i hi1 hi2 => by
      have hi : i = 1 := by omega
      subst hi
      exact ⟨wDocA, rfl, rfl⟩)
    rfl
    (by decide)

/-- C2: for every generator stub that always returns a document whose
signature is already in the history, `generate` with `max_attempts = 3`
invokes the generator exactly 3 times (`calls + 3`), returns the (still
duplicate) repaired document of the third attempt, and the history grows
by exactly one appended entry, not three. -/
theorem forced_acceptance (gen : Nat → Raw) (st : AgentSt)
    (hdup : ∀ i, 1 ≤ i → i ≤ 3 → ∃ di, coerceRaw (gen i) = some di ∧
      checkDuplicate st.history (repairMain di) = true) :
    ∃ d, coerceRaw (gen 3) = some d ∧
      generate gen 3 st =
        Outcome.ok (ContentVal.docv (repairMain d))
          (addToHistory { st with calls := st.calls + 3 } (repairMain d)) ∧
      (addToHistory { st with calls := st.calls + 3 } (repairMain d)).history
        = capHistory (st.history ++ [historyEntryOf (repairMain d)]) := by
  obtain ⟨d, hgen, hloop⟩ := genLoop_all_dup gen 3 0 st none (by omega)
    (fun i hi1 hi2 => by simpa using hdup i hi1 hi2)
  refine ⟨d, by simpa using hgen, ?_, addToHistory_history _ _⟩
  show genLoop gen (3 : Int).toNat 0 st none = _
  have ht : ((3 : Int)).toNat = 3 := rfl
  rw [ht]
  exact hloop

/-- Witness for the forced-acceptance theorem: the always-duplicate stub
`wGenA` over the one-entry history `wStA`. -/
theorem forced_acceptance_witness :
    ∃ d, coerceRaw (wGenA 3) = some d ∧
      generate wGenA 3 wStA =
        Outcome.ok (ContentVal.docv (repairMain d))
          (addToHistory { wStA with calls := wStA.calls + 3 } (repairMain d)) ∧
      (addToHistory { wStA with calls := wStA.calls + 3 } (repairMain d)).history
        = capHistory (wStA.history ++ [historyEntryOf (repairMain d)]) :=
  forced_acceptance wGenA wStA (fun i hi1 hi2 => ⟨wDocA, rfl, by decide⟩)

/-- C3 counterexample: the stub returns a mapping whose caption has
length 5; `generate` accepts and returns it with the short caption intact,
so the claimed invariant `100 ≤ len(caption)` fails on a returned
document.  The repair step only truncates captions longer than 800 and
never enforces the minimum of 100. -/
theorem length_invariants_cex :
    generate cex3gen 3 emptySt = Outcome.ok (ContentVal.docv cex3res) cex3st ∧
    cex3res.caption = some "short" ∧
    "short".length = 5 ∧ ¬ (100 ≤ "short".length) :=
  ⟨by decide, by decide, by decide, by decide⟩

/-- C3 amended: every document returned by `generate` satisfies the upper
length bounds enforced by the repair step whenever the field is present:
heading lines and grey box text at most 20 characters, page titles at most
35, page main points at most 350, caption at most 800.  The lower caption
bound of 100 is not enforced by the code. -/
theorem length_invariants_upper (gen : Nat → Raw) (n : Int) (st : AgentSt)
    (d : Doc) (s2 : AgentSt)
    (h : generate gen n st = Outcome.ok (ContentVal.docv d) s2) :
    boundsOk d = true := by
  unfold generate at h
  rcases hn : n.toNat with _ | f
  · rw [hn] at h
    exact absurd h (by simp [genLoop_zero_none])
  · rw [hn] at h
    obtain ⟨c, m, hv, _, _, _⟩ :=
      genLoop_ok_inv gen (f + 1) 0 st none _ s2 (by omega) h
    have hd : d = repairMain c := by simpa using hv
    rw [hd]
    exact boundsOk_repairMain c

/-- Witness for the upper-bounds theorem at the concrete run of
`cex3gen`. -/
theorem length_invariants_upper_witness : boundsOk cex3res = true :=
  length_invariants_upper cex3gen 3 emptySt cex3res cex3st (by decide)

/-- C4 counterexample: the stub returns a mapping without a
`content_pages` key; the padding block is guarded by
`if "content_pages" in content_json` and never runs, so `generate`
returns a document with no content pages at all, violating the claimed
unconditional floor `len(content_pages) ≥ 3`. -/
theorem page_floor_cex :
    generate cex4gen 3 emptySt = Outcome.ok (ContentVal.docv cex4res) cex4st ∧
    cex4res.content_pages = none ∧
    ¬ (3 ≤ (cex4res.content_pages.getD []).length) :=
  ⟨by decide, by decide, by decide⟩

/-- C4 amended: whenever the returned document has a `content_pages` key,
its page list has at least 3 entries; and whenever the raw mapping has a
`content_pages` key with fewer than 3 pages, the repair appends synthetic
pages titled `Key Point n` with `n` starting at the pre-repair page count
plus one. -/
theorem page_floor_amended :
    (∀ (gen : Nat → Raw) (n : Int) (st : AgentSt) (d : Doc) (s2 : AgentSt)
        (ps : List PageJson),
      generate gen n st = Outcome.ok (ContentVal.docv d) s2 →
      d.content_pages = some ps → 3 ≤ ps.length) ∧
    (∀ (d : Doc) (ps : List PageJson), d.content_pages = some ps →
      (repairMain d).content_pages
        = some (ps.map truncPage ++
            (List.range (3 - ps.length)).map
              (fun i => keyPointPage (ps.length + 1 + i)))) := by
  constructor
  · intro gen n st d s2 ps h hps
    unfold generate at h
    rcases hn : n.toNat with _ | f
    · rw [hn] at h
      exact absurd h (by simp [genLoop_zero_none])
    · rw [hn] at h
      obtain ⟨c, m, hv, _, _, _⟩ :=
        genLoop_ok_inv gen (f + 1) 0 st none _ s2 (by omega) h
      have hd : d = repairMain c := by simpa using hv
      subst hd
      have hmap : c.content_pages.map
          (fun qs => padPages keyPointPage (qs.map truncPage)) = some ps := hps
      obtain ⟨qs, _, hqs⟩ := Option.map_eq_some'.mp hmap
      rw [← hqs]
      exact padPages_length_ge _ _
  · intro d ps hps
    show d.content_pages.map
        (fun qs => padPages keyPointPage (qs.map truncPage)) = _
    rw [hps, Option.map_some']
    simp [padPages, List.length_map]

/-- Witness for the amended page-floor theorem: the accepted document of
the `cex3gen` run has exactly its 3 pages, and a raw one-page document is
padded with `Key Point 2` and `Key Point 3`. -/
theorem page_floor_amended_witness :
    3 ≤ cex3pagesOut.length ∧
    (repairMain wDoc4).content_pages
      = some ([wPage4].map truncPage ++
          (List.range (3 - [wPage4].length)).map
            (fun i => keyPointPage ([wPage4].length + 1 + i))) :=
  ⟨page_floor_amended.1 cex3gen 3 emptySt cex3res cex3st cex3pagesOut
      (by decide) (by decide),
   page_floor_amended.2 wDoc4 [wPage4] rfl⟩

/-- C5: starting from an empty history, 101 sequential successful
`generate` calls with pairwise distinct signatures leave exactly 100
history entries, and the evicted entry is the earliest-inserted one (the
final history is the tail of the 101 appended entries); in general each
accepted document appends one entry and the history is capped to the most
recent 100 (FIFO eviction). -/
theorem history_cap_fifo (docs : List Doc) (st0 : AgentSt)
    (h0 : st0.history = []) (hlen : docs.length = 101)
    (hsig : (docs.map (fun d => contentSignature (repairMain d))).Nodup) :
    (runSeq st0 docs).history.length = 100 ∧
    (runSeq st0 docs).history
      = (docs.map (fun d => historyEntryOf (repairMain d))).tail ∧
    ∀ (s : AgentSt) (d : Doc), (addToHistory s d).history
      = capHistory (s.history ++ [historyEntryOf d]) := by
  have hrs : (runSeq st0 docs).history
      = capHistory (docs.map (fun d => historyEntryOf (repairMain d))) := by
    rw [runSeq_fresh docs st0 (by rw [h0]; simp) hsig
      (fun d hd e he => by rw [h0] at he; exact absurd he (List.not_mem_nil e))]
    rw [h0, List.nil_append]
  have hmlen : (docs.map (fun d => historyEntryOf (repairMain d))).length = 101 := by
    rw [List.length_map]
    exact hlen
  refine ⟨?_, ?_, fun s d => addToHistory_history s d⟩
  · rw [hrs, capHistory_length, hmlen]
    rfl
  · rw [hrs, capHistory_eq_drop, hmlen]
    have h1 : (101 : Nat) - 100 = 1 := rfl
    rw [h1, List.drop_one]

/-- Witness for the history-cap theorem: 101 documents with headings
`0`,...,`100`. -/
theorem history_cap_fifo_witness :
    (runSeq emptySt w5docs).history.length = 100 ∧
    (runSeq emptySt w5docs).history
      = (w5docs.map (fun d => historyEntryOf (repairMain d))).tail ∧
    ∀ (s : AgentSt) (d : Doc), (addToHistory s d).history
      = capHistory (s.history ++ [historyEntryOf d]) :=
  history_cap_fifo w5docs emptySt rfl (by decide) (by decide)

/-- C6 counterexample: the stub returns the unparseable string on attempt
1 and a valid mapping (which happens to duplicate the history) from
attempt 2 on; with `max_attempts = 3` the call makes 3 generator
invocations, not 2, because the duplicate on attempt 2 consumes another
retry.  The claim as stated quantifies over every such stub and is
therefore false. -/
theorem malformed_json_cex :
    coerceRaw (cex6gen 1) = none ∧
    coerceRaw (cex6gen 2) = some wDocA ∧
    (2 : Int) ≤ 3 ∧
    generate cex6gen 3 wStA
      = Outcome.ok (ContentVal.docv (repairMain wDocA)) cex6st ∧
    cex6st.calls = 3 ∧ (3 : Nat) ≠ 2 :=
  ⟨rfl, rfl, by decide, by decide, by decide, by decide⟩

/-- C6 amended: with the additional hypothesis that the attempt-2 mapping
is not a duplicate of the history, a stub returning an unparseable string
on attempt 1 and that mapping on attempt 2 makes exactly 2 generator
invocations under any `max_attempts ≥ 2` and returns successfully: the
coercion failure on a non-final attempt is caught and only consumes a
retry. -/
theorem malformed_json_retry (gen : Nat → Raw) (st : AgentSt) (n : Int)
    (d : Doc) (hn : 2 ≤ n)
    (h1 : coerceRaw (gen 1) = none)
    (h2 : coerceRaw (gen 2) = some d)
    (hd : checkDuplicate st.history (repairMain d) = false) :
    generate gen n st =
      Outcome.ok (ContentVal.docv (repairMain d))
        (addToHistory { st with calls := st.calls + 2 } (repairMain d)) := by
  have hn2 : 2 ≤ n.toNat := by omega
  obtain ⟨f, hf⟩ : ∃ f, n.toNat = (f + 1) + 1 := ⟨n.toNat - 2, by omega⟩
  show genLoop gen n.toNat 0 st none = _
  rw [hf]
  rw [genLoop_succ_none gen (f + 1) 0 st none (by simpa using h1)]
  rw [if_neg (by omega)]
  rw [genLoop_succ_fresh gen f 1 { st with calls := st.calls + 1 }
    (some ContentVal.strv) d (by simpa using h2) hd]

/-- Witness for the amended malformed-JSON theorem: unparseable string on
attempt 1, the fresh `wDocB` on attempt 2, `max_attempts = 3`. -/
theorem malformed_json_retry_witness :
    generate wGen6 3 wStA =
      Outcome.ok (ContentVal.docv (repairMain wDocB))
        (addToHistory { wStA with calls := wStA.calls + 2 } (repairMain wDocB)) :=
  malformed_json_retry wGen6 wStA 3 wDocB (by decide) rfl rfl (by decide)

/-- C7: a missing history file and a history file whose contents are
invalid JSON both load as the empty history — `_load_history` catches the
`json.JSONDecodeError` and returns `[]`, so construction does not raise
and subsequent `generate` calls run with an empty effective history
(`loadHistory` is a total function; the constructed state carries
`history = []`). -/
theorem corrupt_history_load (f : FileSt) (w : Bool)
    (h : f = FileSt.missing ∨ f = FileSt.invalid) :
    loadHistory f = [] ∧ (initAgent f w).history = [] := by
  rcases h with h | h <;> subst h <;> exact ⟨rfl, rfl⟩

/-- Witness for the corrupt-history theorem at an invalid JSON file. -/
theorem corrupt_history_load_witness :
    loadHistory FileSt.invalid = [] ∧ (initAgent FileSt.invalid true).history = [] :=
  corrupt_history_load FileSt.invalid true (Or.inr rfl)

/-- C8: when every history file write fails (`writable = false`), an
accepting `generate` call still returns the same document with the same
in-memory history and call count as the run whose writes succeed (the
write failure is caught inside `_save_history` and does not propagate),
and the in-memory history does contain the newly appended entry. -/
theorem persistence_failure_nonfatal (gen : Nat → Raw) (n : Int) (st : AgentSt)
    (v : ContentVal) (s2 : AgentSt)
    (_hw : st.writable = false)
    (h : generate gen n st = Outcome.ok v s2) :
    outView (generate gen n { st with writable := true })
      = (0, some v, s2.history, s2.calls) ∧
    ∃ d, v = ContentVal.docv d ∧ historyEntryOf d ∈ s2.history := by
  constructor
  · have hcong := genLoop_view_congr gen n.toNat 0
      { st with writable := true } st none rfl rfl
    show outView (genLoop gen n.toNat 0 { st with writable := true } none) = _
    rw [hcong]
    show outView (generate gen n st) = _
    rw [h]
    rfl
  · rcases hn : n.toNat with _ | f
    · exfalso
      unfold generate at h
      rw [hn] at h
      exact absurd h (by simp [genLoop_zero_none])
    · unfold generate at h
      rw [hn] at h
      obtain ⟨c, m, hv, _, _, hs⟩ :=
        genLoop_ok_inv gen (f + 1) 0 st none v s2 (by omega) h
      refine ⟨repairMain c, hv, ?_⟩
      rw [hs, addToHistory_history]
      exact mem_capHistory_append_last _ _

/-- Witness for the persistence-failure theorem: a fresh state with
failing writes accepting `wDocB`. -/
theorem persistence_failure_nonfatal_witness :
    outView (generate (fun _ => Raw.dict wDocB) 3 { wSt8 with writable := true })
      = (0, some (ContentVal.docv wDoc8), wSt8'.history, wSt8'.calls) ∧
    ∃ d, ContentVal.docv wDoc8 = ContentVal.docv d ∧
      historyEntryOf d ∈ wSt8'.history :=
  persistence_failure_nonfatal (fun _ => Raw.dict wDocB) 3 wSt8
    (ContentVal.docv wDoc8) wSt8' rfl (by decide)

/-- C9: the repair step is idempotent — applying the
truncation-and-padding repair to an already repaired mapping changes
nothing: truncating an already truncated field and padding an already
padded page list are both identities. -/
theorem repair_idempotent (d : Doc) :
    repairMain (repairMain d) = repairMain d := by
  rcases d with ⟨cov, cap, pages⟩
  cases cov <;> cases cap <;> cases pages <;>
    simp [repairMain, repairCover_idem, truncIf_idem, repairPages_idem]

/-- C10: for every `max_attempts ≤ 0` the retry loop body never runs, so
`generate` reaches its final `return content_json` with the local variable
never assigned: the call neither returns a document nor raises the
documented generation failure (in Python this is an `UnboundLocalError`),
making `max_attempts ≥ 1` a required precondition of the public
interface. -/
theorem nonpositive_attempts_unbound (gen : Nat → Raw) (st : AgentSt)
    (n : Int) (h : n ≤ 0) :
    generate gen n st = Outcome.unbound st := by
  have h0 : n.toNat = 0 := by omega
  show genLoop gen n.toNat 0 st none = _
  rw [h0]
  rfl

/-- Witness for the nonpositive-attempts theorem at `max_attempts = 0`. -/
theorem nonpositive_attempts_unbound_witness :
    generate (fun _ => Raw.strBad) 0 emptySt = Outcome.unbound emptySt :=
  nonpositive_attempts_unbound (fun _ => Raw.strBad) emptySt 0 (by decide)

end ContentAgentModel
